import Mathlib

/-!
Shallow embedding of the reactolith navigation and scroll-restoration core,
translated from src/ScrollRestoration.ts and src/Router.ts.

JavaScript objects are modelled as ordered association lists of fields, the
scroll-position table (a JS Map) likewise; host-API reads that can throw are
modelled with Except; the entropy source behind generateId (Math.random
formatted in base 36) is modelled as an external stream of strings consumed
one draw per call.
-/

namespace Reactolith

/-- A JavaScript primitive value as it can appear in a history state object. -/
inductive JsVal where
  | str (s : String)
  | num (n : Int)
  | bool (b : Bool)
deriving DecidableEq, Repr

/-- A plain JS object: an ordered association list of named fields. -/
abbrev JsObj := List (String × JsVal)

/-- Property read (o.k): the first field named k, if any. -/
def alGet {κ α : Type} [DecidableEq κ] : List (κ × α) → κ → Option α
  | [], _ => none
  | kv :: rest, k => if kv.1 = k then some kv.2 else alGet rest k

/-- Whether a field named k is present. -/
def hasKey {κ α : Type} [DecidableEq κ] (l : List (κ × α)) (k : κ) : Bool :=
  l.any (fun kv => decide (kv.1 = k))

/-- Replace the value of every field named k, keeping its position. -/
def replaceKey {κ α : Type} [DecidableEq κ] : List (κ × α) → κ → α → List (κ × α)
  | [], _, _ => []
  | kv :: rest, k, v => (if kv.1 = k then (k, v) else kv) :: replaceKey rest k v

/-- JS object-spread update and Map.set: bind k to v in place when the key is
present, append the field otherwise. -/
def alSet {κ α : Type} [DecidableEq κ] (l : List (κ × α)) (k : κ) (v : α) :
    List (κ × α) :=
  if hasKey l k then replaceKey l k v else l ++ [(k, v)]

/-- A 2D scroll offset, from the ScrollPosition type of ScrollRestoration.ts. -/
structure ScrollPosition where
  x : Int
  y : Int
deriving DecidableEq, Repr

/-- The mutable fields of the ScrollRestoration class: the positions Map and
the current navigation-entry id. -/
structure ScrollState where
  positions : List (JsVal × ScrollPosition)
  currentId : JsVal
deriving DecidableEq, Repr

/-- Characters after the first '#' of the url; "" when there is no '#'
(url.indexOf and url.slice in extractHash). -/
def extractHashAux : List Char → List Char
  | [] => []
  | c :: cs => if c = '#' then cs else extractHashAux cs

/-- ScrollRestoration.extractHash: the fragment of a url, "" when absent. -/
def extractHash (url : String) : String :=
  String.mk (extractHashAux url.toList)

/-- The url with its fragment (first '#' and everything after it) removed. -/
def stripFragmentAux : List Char → List Char
  | [] => []
  | c :: cs => if c = '#' then [] else c :: stripFragmentAux cs

/-- The same url with no fragment part. -/
def stripFragment (url : String) : String :=
  String.mk (stripFragmentAux url.toList)

/-- The data-scroll value accepted by Router and ScrollRestoration. -/
inductive ScrollBehavior where
  | top
  | preserve
deriving DecidableEq, Repr

/-- The scroll side effect ScrollRestoration can perform: bring an element
into view, or scroll the governing region to an offset. -/
inductive ScrollAction where
  | scrollIntoView (id : String)
  | scrollTo (x y : Int)
deriving DecidableEq, Repr

/-- ScrollRestoration.scroll: the post-navigation scroll decision.
docIds lists the element ids present in the current document, so membership
models a successful getElementById; the returned value is the scroll action
performed, none when the method returns without scrolling. -/
def ScrollRestoration.scroll (docIds : List String) (st : ScrollState)
    (isPush : Bool) (behavior : Option ScrollBehavior) (url : String) :
    Option ScrollAction :=
  let hash := extractHash url
  if hash ≠ "" ∧ hash ∈ docIds then some (ScrollAction.scrollIntoView hash)
  else if isPush = false then
    match alGet st.positions st.currentId with
    | some p => some (ScrollAction.scrollTo p.x p.y)
    | none => none
  else if behavior = some ScrollBehavior.preserve then none
  else some (ScrollAction.scrollTo 0 0)

/-- The geometry reads ScrollRestoration.getPosition performs. Each host
getter may throw, modelled as Except; container is some pair of reads when a
scrollElement was configured, none when the window is the scroll region. -/
structure GeomReads where
  container : Option (Except Unit Int × Except Unit Int)
  winX : Except Unit Int
  winY : Except Unit Int

/-- ScrollRestoration.getPosition: scrollLeft/scrollTop of the container when
one is configured, else scrollX/scrollY of the window. -/
def ScrollRestoration.getPosition (g : GeomReads) : Except Unit ScrollPosition :=
  match g.container with
  | some (lx, ly) => do
      let x ← lx
      let y ← ly
      pure ⟨x, y⟩
  | none => do
      let x ← g.winX
      let y ← g.winY
      pure ⟨x, y⟩

/-- positions.set(currentId, pos): the table update performed by save(). -/
def ScrollRestoration.record (pos : ScrollPosition) (st : ScrollState) :
    ScrollState :=
  { st with positions := alSet st.positions st.currentId pos }

/-- ScrollRestoration.save as written: set(currentId, getPosition()) with no
try/catch, so a failing geometry read propagates out of the call. -/
def ScrollRestoration.save (g : GeomReads) (st : ScrollState) :
    Except Unit ScrollState :=
  (ScrollRestoration.getPosition g).map (fun p => ScrollRestoration.record p st)

/-- ScrollRestoration.push: allocate a fresh id (freshId models the value the
entropy source produced), make it current, and return the state fragment
handed to history.pushState. -/
def ScrollRestoration.push (freshId : String) (st : ScrollState) :
    JsObj × ScrollState :=
  ([("restorationId", JsVal.str freshId)],
   { st with currentId := JsVal.str freshId })

/-- ScrollRestoration.pop: currentId becomes history.state?.restorationId,
falling back to the previous currentId when the state is null or has no such
field. -/
def ScrollRestoration.pop (histState : Option JsObj) (st : ScrollState) :
    ScrollState :=
  { st with currentId :=
      (histState.bind (fun s => alGet s "restorationId")).getD st.currentId }

/-- The constructor's bootstrapping of the current history entry, from
ScrollRestoration's constructor: reuse the restorationId found in the current
state when present, else a fresh one, and spread it back over the state.
Returns the state written by replaceState and the resulting currentId. -/
def ScrollRestoration.init (histState : Option JsObj) (freshId : String) :
    JsObj × JsVal :=
  let currentId :=
    (histState.bind (fun s => alGet s "restorationId")).getD (JsVal.str freshId)
  (alSet (histState.getD []) "restorationId" currentId, currentId)

/-- A write to the browser history stack. -/
inductive HistWrite where
  | replaceEntry (s : JsObj)
  | pushEntry (s : JsObj) (url : String)
deriving DecidableEq, Repr

/-- Whether a history write creates a new entry. -/
def HistWrite.isPushEntry : HistWrite → Bool
  | HistWrite.pushEntry _ _ => true
  | _ => false

/-- The history write the constructor performs:
win.history.replaceState(spread-state, ""). -/
def ScrollRestoration.initWrite (histState : Option JsObj) (freshId : String) :
    HistWrite :=
  HistWrite.replaceEntry (ScrollRestoration.init histState freshId).1

/-- The sessionStorage slot under the storage key, already parsed: none for a
missing entry or one whose read or parse threw. -/
abbrev Store := Option (List (JsVal × ScrollPosition))

/-- ScrollRestoration.hydrate: merge every persisted entry into the table with
Map.set; missing or corrupt data leaves the state untouched. -/
def ScrollRestoration.hydrate (store : Store) (st : ScrollState) : ScrollState :=
  match store with
  | none => st
  | some entries =>
      { st with positions :=
          entries.foldl (fun ps kv => alSet ps kv.1 kv.2) st.positions }

/-- ScrollRestoration.persist: save() once more, then write the whole table to
sessionStorage; the surrounding try/catch leaves the store unchanged when
anything inside throws. -/
def ScrollRestoration.persist (g : GeomReads) (st : ScrollState)
    (store : Store) : Store :=
  match ScrollRestoration.save g st with
  | Except.ok st1 => some st1.positions
  | Except.error _ => store

/-- n consecutive ScrollRestoration.push calls, drawing generateId values
rs i, rs (i+1), ... from the entropy stream; returns the state fragments the
calls produced and the final state. -/
def ScrollRestoration.pushMany (rs : Nat → String) :
    ScrollState → Nat → Nat → List JsObj × ScrollState
  | st, _, 0 => ([], st)
  | st, i, Nat.succ n =>
      let r := ScrollRestoration.push (rs i) st
      let rest := ScrollRestoration.pushMany rs r.2 (i + 1) n
      (r.1 :: rest.1, rest.2)

/-- The navigation lifecycle events Router emits. Payloads are carried by the
surrounding effect trace; claims only distinguish the event kinds. -/
inductive RouterEvent where
  | navStarted
  | renderSuccess
  | renderFailed
  | navEnded
deriving DecidableEq, Repr

/-- One observable side effect of Router.visit, in program order. -/
inductive Eff where
  | saveCall
  | emit (e : RouterEvent)
  | historyPush (state : JsObj) (url : String)
  | historyReplace (state : JsObj)
  | storePop
  | scrollCall (isPush : Bool) (behavior : Option ScrollBehavior) (url : String)
deriving DecidableEq, Repr

/-- Whether an effect is a history.pushState call. -/
def Eff.isHistoryPush : Eff → Bool
  | Eff.historyPush _ _ => true
  | _ => false

/-- Whether an effect is a history.replaceState call. -/
def Eff.isHistoryReplace : Eff → Bool
  | Eff.historyReplace _ => true
  | _ => false

/-- Whether an effect is a ScrollRestoration.scroll invocation. -/
def Eff.isScrollCall : Eff → Bool
  | Eff.scrollCall _ _ _ => true
  | _ => false

/-- Whether an effect is a ScrollRestoration.pop invocation. -/
def Eff.isStorePop : Eff → Bool
  | Eff.storePop => true
  | _ => false

/-- The settled fetch Response visit consumes: its redirected flag, its
resulting url, and the already-read body text. -/
structure Response where
  redirected : Bool
  url : String
  bodyText : String
deriving DecidableEq, Repr

/-- Everything one Router.visit call observes from its environment: the call
arguments, the settled fetch response, the render collaborator, the
generateId draw a push would consume, the current history state a pop would
read, the geometry save() reads on entry (a successful read), and the
ScrollRestoration state. hasStore mirrors the optional scrollRestoration
field, created only when the document has a window. -/
structure VisitEnv where
  hasStore : Bool
  input : String
  pushFlag : Bool
  scrollOpt : Option ScrollBehavior
  response : Response
  render : String → Bool
  freshId : String
  histState : Option JsObj
  geom : ScrollPosition
  st : ScrollState

/-- The outcome of Router.visit: its effect trace, the final
ScrollRestoration state, and the returned record. -/
structure VisitOut where
  effs : List Eff
  st : ScrollState
  result : Bool
  html : String
  finalUrl : String

/-- Router.visit, translated step by step: save the departing position, emit
nav:started, settle the fetch and body read, compute the final url, render,
then on success either push a new history entry (with the state fragment from
ScrollRestoration.push) or resynchronize with pop, perform the scroll
decision, and emit the closing events. -/
def Router.visit (env : VisitEnv) : VisitOut :=
  let st0 :=
    if env.hasStore then ScrollRestoration.record env.geom env.st else env.st
  let effs0 : List Eff :=
    (if env.hasStore then [Eff.saveCall] else []) ++ [Eff.emit RouterEvent.navStarted]
  let html := env.response.bodyText
  let finalUrl := if env.response.redirected then env.response.url else env.input
  let result := env.render html
  let step : List Eff × ScrollState :=
    if result && env.pushFlag then
      if env.hasStore then
        let pr := ScrollRestoration.push env.freshId st0
        ([Eff.historyPush pr.1 finalUrl], pr.2)
      else ([Eff.historyPush [] finalUrl], st0)
    else if result && !env.pushFlag then
      if env.hasStore then ([Eff.storePop], ScrollRestoration.pop env.histState st0)
      else ([], st0)
    else ([], st0)
  let effs1 := effs0 ++ step.1 ++
    (if result && env.hasStore then
      [Eff.scrollCall env.pushFlag env.scrollOpt finalUrl] else []) ++
    [Eff.emit (if result then RouterEvent.renderSuccess else RouterEvent.renderFailed),
     Eff.emit RouterEvent.navEnded]
  { effs := effs1, st := step.2, result := result, html := html,
    finalUrl := finalUrl }

/-- A value held by a form field: a string or a file entry. -/
inductive FormVal where
  | str (s : String)
  | file (name : String)
deriving DecidableEq, Repr

/-- The activating submit control of a form submission: whether it is a
button element (instanceof HTMLButtonElement), and its name and value. -/
structure Submitter where
  isButton : Bool
  name : String
  value : String
deriving DecidableEq, Repr

/-- The parts of a form submission Router.onSubmit reads: the serialized form
entries (new FormData(form)), the method and action attributes, the target,
and the activating control if any. -/
structure FormModel where
  fields : List (String × FormVal)
  methodAttr : String
  actionAttr : Option String
  target : String
  submitter : Option Submitter
deriving DecidableEq, Repr

/-- The request an intercepted submission hands to visit. queryPairs is the
content of the URLSearchParams appended to the action for GET; bodyPairs is
the FormData sent as the body otherwise. -/
structure SubmitRequest where
  method : String
  action : String
  queryPairs : List (String × String)
  bodyPairs : Option (List (String × FormVal))
deriving DecidableEq, Repr

/-- ASCII uppercase mapping of one character, the effect of toUpperCase on
the ASCII method strings the DOM produces. -/
def upperChar (c : Char) : Char :=
  if c.isLower then Char.ofNat (c.toNat - 32) else c

/-- method.toUpperCase() on ASCII strings. -/
def strToUpper (s : String) : String :=
  String.mk (s.toList.map upperChar)

/-- ASCII lowercase mapping of one character. -/
def lowerChar (c : Char) : Char :=
  if c.isUpper then Char.ofNat (c.toNat + 32) else c

/-- target.toLowerCase() on ASCII strings. -/
def strToLower (s : String) : String :=
  String.mk (s.toList.map lowerChar)

/-- href.startsWith(p), character by character. -/
def strStartsWith (s p : String) : Bool :=
  p.toList.isPrefixOf s.toList

/-- A character allowed after the first letter of a URL scheme. -/
def isSchemeChar (c : Char) : Bool :=
  c.isAlphanum || c == '+' || c == '-' || c == '.'

/-- After an initial letter: zero or more scheme characters then a colon. -/
def schemeTail : List Char → Bool
  | [] => false
  | c :: cs => if c = ':' then true else isSchemeChar c && schemeTail cs

/-- The scheme test of Router.isRelativeHref: a leading letter, scheme
characters, then a colon. -/
def hasScheme (href : String) : Bool :=
  match href.toList with
  | [] => false
  | c :: cs => c.isAlpha && schemeTail cs

/-- Router.isRelativeHref: rejects empty hrefs, bare fragments,
protocol-relative urls and urls with a scheme. -/
def isRelativeHref (href : Option String) : Bool :=
  match href with
  | none => false
  | some h =>
      if h = "" then false
      else if strStartsWith h "#" then false
      else if strStartsWith h "//" then false
      else !(hasScheme h)

/-- Router.onSubmit up to its visit call: the target and action gates, the
FormData assembly including the button-submitter append, and the GET versus
body split. none means the submission is left to the browser. -/
def Router.onSubmit (f : FormModel) : Option SubmitRequest :=
  if f.target ≠ "" ∧ strToLower f.target ≠ "_self" then none
  else if ¬(f.actionAttr = none ∨ isRelativeHref f.actionAttr = true) then none
  else
    let fd := f.fields ++
      (match f.submitter with
       | some s =>
          if s.isButton = true ∧ s.name ≠ "" then [(s.name, FormVal.str s.value)]
          else []
       | none => [])
    let m := strToUpper (if f.methodAttr = "" then "GET" else f.methodAttr)
    let act := f.actionAttr.getD ""
    if m = "GET" then
      some { method := m, action := act,
             queryPairs := fd.filterMap (fun kv =>
               match kv.2 with
               | FormVal.str s => some (kv.1, s)
               | FormVal.file _ => none),
             bodyPairs := none }
    else
      some { method := m, action := act, queryPairs := [], bodyPairs := some fd }

theorem hasKey_of_mem {κ α : Type} [DecidableEq κ] {l : List (κ × α)} {k : κ}
    {v : α} (h : (k, v) ∈ l) : hasKey l k = true := by
  simp only [hasKey, List.any_eq_true]
  exact ⟨(k, v), h, by simp⟩

theorem hasKey_iff_exists {κ α : Type} [DecidableEq κ] (l : List (κ × α))
    (k : κ) : hasKey l k = true ↔ ∃ v, (k, v) ∈ l := by
  constructor
  · intro h
    simp only [hasKey, List.any_eq_true] at h
    obtain ⟨kv, hmem, hk⟩ := h
    obtain ⟨k1, v1⟩ := kv
    simp at hk
    subst hk
    exact ⟨v1, hmem⟩
  · intro ⟨v, hv⟩
    exact hasKey_of_mem hv

theorem alGet_replaceKey_self {κ α : Type} [DecidableEq κ]
    (l : List (κ × α)) (k : κ) (v : α) (h : hasKey l k = true) :
    alGet (replaceKey l k v) k = some v := by
  induction l with
  | nil => simp [hasKey] at h
  | cons kv rest ih =>
      by_cases hk : kv.1 = k
      · simp [replaceKey, hk, alGet]
      · have h' : hasKey rest k = true := by
          simp only [hasKey, List.any_cons, Bool.or_eq_true, decide_eq_true_eq] at h
          rcases h with h | h
          · exact absurd h hk
          · exact h
        simp [replaceKey, hk, alGet, ih h']

theorem alGet_replaceKey_ne {κ α : Type} [DecidableEq κ]
    (l : List (κ × α)) (k : κ) (v : α) (k' : κ) (h : k' ≠ k) :
    alGet (replaceKey l k v) k' = alGet l k' := by
  induction l with
  | nil => rfl
  | cons kv rest ih =>
      by_cases hk : kv.1 = k
      · have hne : ¬(k = k') := fun hh => h hh.symm
        simp [replaceKey, hk, alGet, hne, ih]
      · simp [replaceKey, hk, alGet, ih]

theorem alGet_append_absent {κ α : Type} [DecidableEq κ]
    (l l2 : List (κ × α)) (k : κ) (h : hasKey l k = false) :
    alGet (l ++ l2) k = alGet l2 k := by
  induction l with
  | nil => rfl
  | cons kv rest ih =>
      simp only [hasKey, List.any_cons, Bool.or_eq_false_iff,
        decide_eq_false_iff_not] at h
      simp [alGet, h.1, ih (by simp [hasKey, h.2])]

theorem alGet_append_single_ne {κ α : Type} [DecidableEq κ]
    (l : List (κ × α)) (k : κ) (v : α) (k' : κ) (h : k' ≠ k) :
    alGet (l ++ [(k, v)]) k' = alGet l k' := by
  induction l with
  | nil => simp [alGet, Ne.symm h]
  | cons kv rest ih => by_cases hk : kv.1 = k' <;> simp [alGet, hk, ih]

theorem alGet_alSet_self {κ α : Type} [DecidableEq κ]
    (l : List (κ × α)) (k : κ) (v : α) : alGet (alSet l k v) k = some v := by
  unfold alSet
  by_cases h : hasKey l k = true
  · simp [h, alGet_replaceKey_self l k v h]
  · rw [if_neg (by simp [h])]
    rw [alGet_append_absent l _ k (by simp only [Bool.not_eq_true] at h; exact h)]
    simp [alGet]

theorem alGet_alSet_ne {κ α : Type} [DecidableEq κ]
    (l : List (κ × α)) (k : κ) (v : α) (k' : κ) (h : k' ≠ k) :
    alGet (alSet l k v) k' = alGet l k' := by
  unfold alSet
  by_cases hk : hasKey l k = true
  · simp [hk, alGet_replaceKey_ne l k v k' h]
  · rw [if_neg (by simp [hk])]
    exact alGet_append_single_ne l k v k' h

theorem mem_replaceKey_self {κ α : Type} [DecidableEq κ]
    (l : List (κ × α)) (k : κ) (v : α) (h : hasKey l k = true) :
    (k, v) ∈ replaceKey l k v := by
  induction l with
  | nil => simp [hasKey] at h
  | cons kv rest ih =>
      by_cases hk : kv.1 = k
      · simp [replaceKey, hk]
      · have h' : hasKey rest k = true := by
          simp only [hasKey, List.any_cons, Bool.or_eq_true, decide_eq_true_eq] at h
          rcases h with h | h
          · exact absurd h hk
          · exact h
        simp [replaceKey, hk]
        exact Or.inr (ih h')

theorem mem_alSet_self {κ α : Type} [DecidableEq κ]
    (l : List (κ × α)) (k : κ) (v : α) : (k, v) ∈ alSet l k v := by
  unfold alSet
  by_cases h : hasKey l k = true
  · simp only [h, if_true]
    exact mem_replaceKey_self l k v h
  · rw [if_neg (by simp [h])]
    simp

theorem replaceKey_key_values {κ α : Type} [DecidableEq κ]
    (l : List (κ × α)) (k : κ) (v : α) :
    ∀ v', (k, v') ∈ replaceKey l k v → v' = v := by
  induction l with
  | nil => simp [replaceKey]
  | cons kv rest ih =>
      intro v' hmem
      obtain ⟨k1, v1⟩ := kv
      by_cases hk : k1 = k
      · simp only [replaceKey, hk, if_pos rfl, List.mem_cons] at hmem
        rcases hmem with h | h
        · exact (Prod.mk.injEq _ _ _ _ ▸ h).2
        · exact ih v' h
      · simp only [replaceKey, if_neg hk, List.mem_cons] at hmem
        rcases hmem with h | h
        · exact absurd ((Prod.mk.injEq _ _ _ _ ▸ h).1.symm) hk
        · exact ih v' h

theorem alSet_key_values {κ α : Type} [DecidableEq κ]
    (l : List (κ × α)) (k : κ) (v : α) :
    ∀ v', (k, v') ∈ alSet l k v → v' = v := by
  unfold alSet
  by_cases h : hasKey l k = true
  · simp only [h, if_true]
    exact replaceKey_key_values l k v
  · rw [if_neg (by simp [h])]
    intro v' hmem
    rcases List.mem_append.mp hmem with h1 | h1
    · exact absurd (hasKey_of_mem h1) (by simp [h])
    · simpa using h1

theorem alGet_foldl_absent {κ α : Type} [DecidableEq κ]
    (entries : List (κ × α)) (ps : List (κ × α)) (k : κ)
    (h : hasKey entries k = false) :
    alGet (entries.foldl (fun a kv => alSet a kv.1 kv.2) ps) k = alGet ps k := by
  induction entries generalizing ps with
  | nil => rfl
  | cons kv rest ih =>
      simp only [hasKey, List.any_cons, Bool.or_eq_false_iff,
        decide_eq_false_iff_not] at h
      rw [List.foldl_cons, ih _ (by simp [hasKey, h.2])]
      exact alGet_alSet_ne _ _ _ _ (fun hh => h.1 hh.symm)

theorem alGet_foldl_all {κ α : Type} [DecidableEq κ]
    (entries : List (κ × α)) (ps : List (κ × α)) (k : κ) (v : α)
    (hall : ∀ v', (k, v') ∈ entries → v' = v)
    (hmem : (k, v) ∈ entries) :
    alGet (entries.foldl (fun a kv => alSet a kv.1 kv.2) ps) k = some v := by
  induction entries generalizing ps with
  | nil => cases hmem
  | cons kv rest ih =>
      rw [List.foldl_cons]
      by_cases hr : hasKey rest k = true
      · obtain ⟨v', hv'⟩ := (hasKey_iff_exists rest k).mp hr
        have hveq : v' = v := hall v' (List.mem_cons_of_mem _ hv')
        exact ih _ (fun u hu => hall u (List.mem_cons_of_mem _ hu)) (hveq ▸ hv')
      · have hkv : kv = (k, v) := by
          rcases List.mem_cons.mp hmem with h | h
          · exact h.symm
          · exact absurd (hasKey_of_mem h) hr
        subst hkv
        rw [alGet_foldl_absent rest _ k (by simp only [Bool.not_eq_true] at hr; exact hr)]
        exact alGet_alSet_self ps k v

theorem extractHashAux_stripFragmentAux (l : List Char) :
    extractHashAux (stripFragmentAux l) = [] := by
  induction l with
  | nil => rfl
  | cons c cs ih =>
      by_cases h : c = '#' <;> simp [stripFragmentAux, extractHashAux, h, ih]

theorem extractHash_stripFragment (url : String) :
    extractHash (stripFragment url) = "" := by
  unfold extractHash stripFragment
  rw [show (String.mk (stripFragmentAux url.toList)).toList
      = stripFragmentAux url.toList from rfl]
  rw [extractHashAux_stripFragmentAux]

def natRange : Nat → Nat → List Nat
  | _, 0 => []
  | i, n + 1 => i :: natRange (i + 1) n

theorem mem_natRange (m i n : Nat) : m ∈ natRange i n ↔ i ≤ m ∧ m < i + n := by
  induction n generalizing i with
  | zero => simp [natRange]
  | succ n ih =>
      simp only [natRange, List.mem_cons, ih]
      omega

theorem nodup_natRange (i n : Nat) : (natRange i n).Nodup := by
  induction n generalizing i with
  | zero => simp [natRange]
  | succ n ih =>
      simp only [natRange, List.nodup_cons]
      refine ⟨fun h => ?_, ih (i + 1)⟩
      rw [mem_natRange] at h
      omega

theorem pushMany_fst (rs : Nat → String) (st : ScrollState) (i n : Nat) :
    (ScrollRestoration.pushMany rs st i n).1 =
      (natRange i n).map (fun j => [("restorationId", JsVal.str (rs j))]) := by
  induction n generalizing st i with
  | zero => rfl
  | succ n ih =>
      simp only [ScrollRestoration.pushMany, ScrollRestoration.push, natRange,
        List.map_cons, List.cons.injEq]
      exact ⟨trivial, ih _ _⟩

/-- C1: in scroll(isPush, intent, url), a fragment whose element exists in
the document wins: that element is scrolled into view and nothing else
happens, regardless of isPush, intent and saved offsets; and a fragment whose
element does not exist makes the call behave exactly like the same call with
the fragment stripped from the url. The hypothesis states that no element
carries the empty id, as in any document. -/
theorem scroll_fragment_priority (docIds : List String) (st : ScrollState)
    (isPush : Bool) (b : Option ScrollBehavior) (url : String)
    (hid : "" ∉ docIds) :
    (extractHash url ∈ docIds →
      ScrollRestoration.scroll docIds st isPush b url =
        some (ScrollAction.scrollIntoView (extractHash url))) ∧
    (extractHash url ∉ docIds →
      ScrollRestoration.scroll docIds st isPush b url =
        ScrollRestoration.scroll docIds st isPush b (stripFragment url)) := by
  constructor
  · intro hm
    have hne : extractHash url ≠ "" := fun h => hid (h ▸ hm)
    simp [ScrollRestoration.scroll, hm, hne]
  · intro hnm
    simp [ScrollRestoration.scroll, extractHash_stripFragment, hnm]

theorem scroll_fragment_priority_witness :
    ScrollRestoration.scroll ["sec"] ⟨[(JsVal.str "a", ⟨1, 2⟩)], JsVal.str "a"⟩
        false none "/page#sec" =
      some (ScrollAction.scrollIntoView "sec") ∧
    ScrollRestoration.scroll ["sec"] ⟨[(JsVal.str "a", ⟨1, 2⟩)], JsVal.str "a"⟩
        true (some ScrollBehavior.preserve) "/page#gone" =
      ScrollRestoration.scroll ["sec"] ⟨[(JsVal.str "a", ⟨1, 2⟩)], JsVal.str "a"⟩
        true (some ScrollBehavior.preserve) (stripFragment "/page#gone") := by
  constructor
  · exact (scroll_fragment_priority ["sec"] ⟨[(JsVal.str "a", ⟨1, 2⟩)], JsVal.str "a"⟩
      false none "/page#sec" (by decide)).1 (by decide)
  · exact (scroll_fragment_priority ["sec"] ⟨[(JsVal.str "a", ⟨1, 2⟩)], JsVal.str "a"⟩
      true (some ScrollBehavior.preserve) "/page#gone" (by decide)).2 (by decide)

/-- C2: with no effective fragment in the url, a pop restores the saved
offset for the current entry and does nothing at all when none is saved; a
push with intent preserve performs no scroll; a push with intent top or no
intent scrolls the governing region to (0, 0). -/
theorem scroll_no_fragment_policy (docIds : List String) (st : ScrollState)
    (isPush : Bool) (b : Option ScrollBehavior) (url : String)
    (hno : ¬(extractHash url ≠ "" ∧ extractHash url ∈ docIds)) :
    (isPush = false → ∀ p, alGet st.positions st.currentId = some p →
      ScrollRestoration.scroll docIds st isPush b url =
        some (ScrollAction.scrollTo p.x p.y)) ∧
    (isPush = false → alGet st.positions st.currentId = none →
      ScrollRestoration.scroll docIds st isPush b url = none) ∧
    (isPush = true → b = some ScrollBehavior.preserve →
      ScrollRestoration.scroll docIds st isPush b url = none) ∧
    (isPush = true → (b = some ScrollBehavior.top ∨ b = none) →
      ScrollRestoration.scroll docIds st isPush b url =
        some (ScrollAction.scrollTo 0 0)) := by
  refine ⟨?_, ?_, ?_, ?_⟩
  · intro hp p hsome
    subst hp
    simp [ScrollRestoration.scroll, hno, hsome]
  · intro hp hnone
    subst hp
    simp [ScrollRestoration.scroll, hno, hnone]
  · intro hp hb
    subst hp
    subst hb
    simp [ScrollRestoration.scroll, hno]
  · intro hp hb
    subst hp
    rcases hb with rfl | rfl <;> simp [ScrollRestoration.scroll, hno]

theorem scroll_no_fragment_policy_witness :
    ScrollRestoration.scroll [] ⟨[(JsVal.str "a", ⟨3, 4⟩)], JsVal.str "a"⟩
        false none "/plain" = some (ScrollAction.scrollTo 3 4) ∧
    ScrollRestoration.scroll [] ⟨[(JsVal.str "a", ⟨3, 4⟩)], JsVal.str "a"⟩
        true (some ScrollBehavior.preserve) "/plain" = none := by
  constructor
  · exact (scroll_no_fragment_policy [] ⟨[(JsVal.str "a", ⟨3, 4⟩)], JsVal.str "a"⟩
      false none "/plain" (by decide)).1 rfl ⟨3, 4⟩ (by decide)
  · exact (scroll_no_fragment_policy [] ⟨[(JsVal.str "a", ⟨3, 4⟩)], JsVal.str "a"⟩
      true (some ScrollBehavior.preserve) "/plain" (by decide)).2.2.1 rfl rfl

/-- C5: on construction, for any prior history entry state S (null included),
the state written back keeps an existing restorationId value, synthesizes one
only when the field is absent, preserves every other field of S with its
original value, and is written by a same-entry replaceState, never by a
pushState. -/
theorem init_merges_restoration_id (S : Option JsObj) (fresh : String) :
    (∀ v, S.bind (fun s => alGet s "restorationId") = some v →
      alGet (ScrollRestoration.init S fresh).1 "restorationId" = some v ∧
      (ScrollRestoration.init S fresh).2 = v) ∧
    (S.bind (fun s => alGet s "restorationId") = none →
      alGet (ScrollRestoration.init S fresh).1 "restorationId" =
        some (JsVal.str fresh)) ∧
    (∀ k, k ≠ "restorationId" →
      alGet (ScrollRestoration.init S fresh).1 k = alGet (S.getD []) k) ∧
    (ScrollRestoration.initWrite S fresh).isPushEntry = false := by
  refine ⟨?_, ?_, ?_, rfl⟩
  · intro v hv
    refine ⟨?_, ?_⟩ <;> simp only [ScrollRestoration.init, hv, Option.getD_some]
    exact alGet_alSet_self _ _ _
  · intro hv
    simp only [ScrollRestoration.init, hv, Option.getD_none]
    exact alGet_alSet_self _ _ _
  · intro k hk
    simp only [ScrollRestoration.init]
    exact alGet_alSet_ne _ _ _ _ hk

theorem init_merges_restoration_id_witness :
    alGet (ScrollRestoration.init
        (some [("custom", JsVal.num 7), ("restorationId", JsVal.str "old")])
        "fresh1").1 "restorationId" = some (JsVal.str "old") ∧
    alGet (ScrollRestoration.init
        (some [("custom", JsVal.num 7), ("restorationId", JsVal.str "old")])
        "fresh1").1 "custom" = some (JsVal.num 7) ∧
    alGet (ScrollRestoration.init none "fresh2").1 "restorationId" =
      some (JsVal.str "fresh2") ∧
    (ScrollRestoration.initWrite none "fresh2").isPushEntry = false := by
  refine ⟨?_, ?_, ?_, ?_⟩
  · exact ((init_merges_restoration_id
      (some [("custom", JsVal.num 7), ("restorationId", JsVal.str "old")])
      "fresh1").1 (JsVal.str "old") (by decide)).1
  · exact (init_merges_restoration_id
      (some [("custom", JsVal.num 7), ("restorationId", JsVal.str "old")])
      "fresh1").2.2.1 "custom" (by decide)
  · exact (init_merges_restoration_id none "fresh2").2.1 rfl
  · exact (init_merges_restoration_id none "fresh2").2.2.2

/-- C6 counterexample: save() wraps no try/catch around its geometry read, so
a failing read propagates out of the call instead of being recorded as (0,0)
or skipped; here the viewport scrollX getter fails. -/
theorem save_propagates_geometry_failure :
    ScrollRestoration.save ⟨none, Except.error (), Except.ok 0⟩
      ⟨[], JsVal.str "a"⟩ = Except.error () := rfl

/-- C6 amended: save() completes without error whenever the geometry reads
succeed, recording the read offset under the current entry id; a failing
geometry read propagates out of save() (only persist() catches it). -/
theorem save_ok_of_geometry_ok (g : GeomReads) (st : ScrollState)
    (p : ScrollPosition) (h : ScrollRestoration.getPosition g = Except.ok p) :
    ScrollRestoration.save g st =
      Except.ok (ScrollRestoration.record p st) ∧
    alGet (ScrollRestoration.record p st).positions st.currentId = some p := by
  constructor
  · unfold ScrollRestoration.save
    rw [h]
    rfl
  · simp only [ScrollRestoration.record]
    exact alGet_alSet_self st.positions st.currentId p

theorem save_ok_of_geometry_ok_witness :
    ScrollRestoration.save ⟨none, Except.ok 7, Except.ok 8⟩
        ⟨[], JsVal.str "a"⟩ =
      Except.ok (ScrollRestoration.record ⟨7, 8⟩ ⟨[], JsVal.str "a"⟩) ∧
    alGet (ScrollRestoration.record ⟨7, 8⟩
        ⟨[], JsVal.str "a"⟩).positions (JsVal.str "a") = some ⟨7, 8⟩ :=
  save_ok_of_geometry_ok ⟨none, Except.ok 7, Except.ok 8⟩
    ⟨[], JsVal.str "a"⟩ ⟨7, 8⟩ rfl

/-- C10: when the current history entry state is null or carries no
restorationId, pop() leaves the whole ScrollRestoration state unchanged, the
current entry id included; pop is a total function of its inputs, so the
call cannot throw. -/
theorem pop_missing_restoration_id (S : Option JsObj) (st : ScrollState)
    (h : S.bind (fun s => alGet s "restorationId") = none) :
    ScrollRestoration.pop S st = st := by
  unfold ScrollRestoration.pop
  rw [h]
  rfl

theorem pop_missing_restoration_id_witness :
    ScrollRestoration.pop none ⟨[], JsVal.str "keep"⟩ =
        ⟨[], JsVal.str "keep"⟩ ∧
    ScrollRestoration.pop (some [("other", JsVal.num 3)])
        ⟨[], JsVal.str "keep"⟩ = ⟨[], JsVal.str "keep"⟩ :=
  ⟨pop_missing_restoration_id none ⟨[], JsVal.str "keep"⟩ rfl,
   pop_missing_restoration_id (some [("other", JsVal.num 3)])
     ⟨[], JsVal.str "keep"⟩ (by decide)⟩

/-- C7 counterexample: the persistence write calls save() again first, so the
stored value for the active entry is the geometry read at persist time, not
the offset previously saved in the table; with (5,5) saved and the viewport
at (9,9), the hydrated table recovers (9,9). -/
theorem persist_recaptures_current_position :
    alGet (ScrollRestoration.hydrate
        (ScrollRestoration.persist ⟨none, Except.ok 9, Except.ok 9⟩
          ⟨[(JsVal.str "a", ⟨5, 5⟩)], JsVal.str "a"⟩ none)
        ⟨[], JsVal.str "a"⟩).positions (JsVal.str "a") = some ⟨9, 9⟩ ∧
    (⟨9, 9⟩ : ScrollPosition) ≠ ⟨5, 5⟩ := by
  exact ⟨rfl, by decide⟩

/-- C7 amended: with offset (X,Y) saved for the active entry and the
geometry still reading (X,Y) when the persistence write runs (persist
re-captures the latest position before serializing), serializing, clearing
the in-memory table, and hydrating a fresh table recovers exactly (X,Y) for
that entry id. -/
theorem persist_hydrate_roundtrip (g : GeomReads) (st : ScrollState)
    (store : Store) (X Y : Int)
    (hg : ScrollRestoration.getPosition g = Except.ok ⟨X, Y⟩)
    (hsaved : alGet st.positions st.currentId = some ⟨X, Y⟩) :
    alGet (ScrollRestoration.hydrate
        (ScrollRestoration.persist g st store)
        ⟨[], st.currentId⟩).positions st.currentId = some ⟨X, Y⟩ := by
  have hsave : ScrollRestoration.save g st =
      Except.ok (ScrollRestoration.record ⟨X, Y⟩ st) := by
    unfold ScrollRestoration.save
    rw [hg]
    rfl
  unfold ScrollRestoration.persist
  rw [hsave]
  simp only [ScrollRestoration.hydrate, ScrollRestoration.record]
  exact alGet_foldl_all _ _ _ _
    (alSet_key_values st.positions st.currentId ⟨X, Y⟩)
    (mem_alSet_self st.positions st.currentId ⟨X, Y⟩)

theorem persist_hydrate_roundtrip_witness :
    alGet (ScrollRestoration.hydrate
        (ScrollRestoration.persist ⟨none, Except.ok 2, Except.ok 3⟩
          ⟨[(JsVal.str "a", ⟨2, 3⟩)], JsVal.str "a"⟩ none)
        ⟨[], JsVal.str "a"⟩).positions (JsVal.str "a") = some ⟨2, 3⟩ :=
  persist_hydrate_roundtrip ⟨none, Except.ok 2, Except.ok 3⟩
    ⟨[(JsVal.str "a", ⟨2, 3⟩)], JsVal.str "a"⟩ none 2 3 rfl (by decide)

/-- C8 counterexample: generateId is a bare draw from the entropy source,
with no dedup in push(); on a source that repeats a value, two consecutive
push() calls return equal restorationIds. -/
theorem push_ids_repeat_on_repeated_draws :
    ¬ (((ScrollRestoration.pushMany (fun _ => "x") ⟨[], JsVal.str "c"⟩
          0 2).1.map (fun o => alGet o "restorationId")).Nodup) := by
  decide

/-- C8 amended: n consecutive push() calls return pairwise distinct
NavigationEntryIds exactly when the underlying entropy draws they consume
are pairwise distinct; the code adds no deduplication of its own, so the
uniqueness is inherited from the source. -/
theorem push_ids_distinct_of_distinct_draws (rs : Nat → String)
    (st : ScrollState) (n : Nat)
    (h : ∀ i, i < n → ∀ j, j < n → rs i = rs j → i = j) :
    (((ScrollRestoration.pushMany rs st 0 n).1.map
        (fun o => alGet o "restorationId")).Nodup) := by
  rw [pushMany_fst, List.map_map]
  refine List.Nodup.map_on ?_ (nodup_natRange 0 n)
  intro a ha b hb hab
  have ha' := (mem_natRange a 0 n).mp ha
  have hb' := (mem_natRange b 0 n).mp hb
  have hrs : rs a = rs b := by
    simpa [alGet, Function.comp] using hab
  exact h a (by omega) b (by omega) hrs

theorem push_ids_distinct_of_distinct_draws_witness :
    (((ScrollRestoration.pushMany (fun i => toString i)
        ⟨[], JsVal.str "c"⟩ 0 3).1.map
        (fun o => alGet o "restorationId")).Nodup) :=
  push_ids_distinct_of_distinct_draws (fun i => toString i)
    ⟨[], JsVal.str "c"⟩ 3 (by decide)

/-- C3: when the fetch and body read settle but the render collaborator
fails, visit performs no pushState and no replaceState, never invokes the
store pop, performs no scroll call at all, yet still emits the render-failed
and navigation-ended events and returns with the failure flag. -/
theorem visit_render_failure_inert (env : VisitEnv)
    (hr : env.render env.response.bodyText = false) :
    (Router.visit env).result = false ∧
    ((Router.visit env).effs.all (fun e =>
      !e.isHistoryPush && !e.isHistoryReplace && !e.isStorePop &&
        !e.isScrollCall)) = true ∧
    Eff.emit RouterEvent.renderFailed ∈ (Router.visit env).effs ∧
    Eff.emit RouterEvent.navEnded ∈ (Router.visit env).effs := by
  have hcases : env.hasStore = true ∨ env.hasStore = false := by
    cases env.hasStore <;> simp
  rcases hcases with hs | hs <;>
    simp [Router.visit, hr, hs, Eff.isHistoryPush, Eff.isHistoryReplace,
      Eff.isStorePop, Eff.isScrollCall]

theorem visit_render_failure_inert_witness :
    (Router.visit
      { hasStore := true, input := "/a", pushFlag := true, scrollOpt := none,
        response := ⟨false, "", "body"⟩, render := fun _ => false,
        freshId := "f", histState := none, geom := ⟨0, 0⟩,
        st := ⟨[], JsVal.str "c"⟩ }).result = false ∧
    ((Router.visit
      { hasStore := true, input := "/a", pushFlag := true, scrollOpt := none,
        response := ⟨false, "", "body"⟩, render := fun _ => false,
        freshId := "f", histState := none, geom := ⟨0, 0⟩,
        st := ⟨[], JsVal.str "c"⟩ }).effs.all (fun e =>
      !e.isHistoryPush && !e.isHistoryReplace && !e.isStorePop &&
        !e.isScrollCall)) = true ∧
    Eff.emit RouterEvent.renderFailed ∈ (Router.visit
      { hasStore := true, input := "/a", pushFlag := true, scrollOpt := none,
        response := ⟨false, "", "body"⟩, render := fun _ => false,
        freshId := "f", histState := none, geom := ⟨0, 0⟩,
        st := ⟨[], JsVal.str "c"⟩ }).effs ∧
    Eff.emit RouterEvent.navEnded ∈ (Router.visit
      { hasStore := true, input := "/a", pushFlag := true, scrollOpt := none,
        response := ⟨false, "", "body"⟩, render := fun _ => false,
        freshId := "f", histState := none, geom := ⟨0, 0⟩,
        st := ⟨[], JsVal.str "c"⟩ }).effs :=
  visit_render_failure_inert
    { hasStore := true, input := "/a", pushFlag := true, scrollOpt := none,
      response := ⟨false, "", "body"⟩, render := fun _ => false,
      freshId := "f", histState := none, geom := ⟨0, 0⟩,
      st := ⟨[], JsVal.str "c"⟩ } rfl

/-- C4: on a successful push navigation with the store present, exactly one
history entry is pushed; its state is the fragment ScrollRestoration.push
returned, carrying the newly allocated restorationId, which also becomes the
current entry id; its url is the response url when the fetch was redirected
and the requested url otherwise; and the scroll decision is invoked with
that same final url. -/
theorem visit_push_success_history (env : VisitEnv)
    (hr : env.render env.response.bodyText = true)
    (hp : env.pushFlag = true)
    (hs : env.hasStore = true) :
    ((Router.visit env).effs.filter (fun e => e.isHistoryPush)) =
      [Eff.historyPush [("restorationId", JsVal.str env.freshId)]
        (if env.response.redirected then env.response.url else env.input)] ∧
    (Router.visit env).st.currentId = JsVal.str env.freshId ∧
    (Router.visit env).finalUrl =
      (if env.response.redirected then env.response.url else env.input) ∧
    Eff.scrollCall true env.scrollOpt
      (if env.response.redirected then env.response.url else env.input) ∈
      (Router.visit env).effs := by
  simp [Router.visit, hr, hp, hs, ScrollRestoration.push, Eff.isHistoryPush]

theorem visit_push_success_history_witness :
    ((Router.visit
      { hasStore := true, input := "/req", pushFlag := true, scrollOpt := none,
        response := ⟨true, "/redirected", "body"⟩, render := fun _ => true,
        freshId := "id9", histState := none, geom := ⟨0, 0⟩,
        st := ⟨[], JsVal.str "c"⟩ }).effs.filter (fun e => e.isHistoryPush)) =
      [Eff.historyPush [("restorationId", JsVal.str "id9")]
        (if (true : Bool) then "/redirected" else "/req")] ∧
    (Router.visit
      { hasStore := true, input := "/req", pushFlag := true, scrollOpt := none,
        response := ⟨true, "/redirected", "body"⟩, render := fun _ => true,
        freshId := "id9", histState := none, geom := ⟨0, 0⟩,
        st := ⟨[], JsVal.str "c"⟩ }).st.currentId = JsVal.str "id9" ∧
    (Router.visit
      { hasStore := true, input := "/req", pushFlag := true, scrollOpt := none,
        response := ⟨true, "/redirected", "body"⟩, render := fun _ => true,
        freshId := "id9", histState := none, geom := ⟨0, 0⟩,
        st := ⟨[], JsVal.str "c"⟩ }).finalUrl =
      (if (true : Bool) then "/redirected" else "/req") ∧
    Eff.scrollCall true none (if (true : Bool) then "/redirected" else "/req") ∈
      (Router.visit
      { hasStore := true, input := "/req", pushFlag := true, scrollOpt := none,
        response := ⟨true, "/redirected", "body"⟩, render := fun _ => true,
        freshId := "id9", histState := none, geom := ⟨0, 0⟩,
        st := ⟨[], JsVal.str "c"⟩ }).effs :=
  visit_push_success_history
    { hasStore := true, input := "/req", pushFlag := true, scrollOpt := none,
      response := ⟨true, "/redirected", "body"⟩, render := fun _ => true,
      freshId := "id9", histState := none, geom := ⟨0, 0⟩,
      st := ⟨[], JsVal.str "c"⟩ } rfl rfl rfl

/-- C9 counterexample: the submitter append is guarded by an instanceof
HTMLButtonElement test, so the name/value pair of a non-button activating
submit control (such as an input-typed submit) is dropped: here the POST
body is empty even though the activating control carries the pair act=del. -/
theorem onSubmit_drops_nonbutton_submitter :
    Router.onSubmit
      { fields := [], methodAttr := "post", actionAttr := some "/go",
        target := "", submitter := some ⟨false, "act", "del"⟩ } =
      some { method := "POST", action := "/go", queryPairs := [],
             bodyPairs := some [] } := by
  decide

/-- C9 amended: for an intercepted submission whose activating control is a
button element carrying a name, the control's name/value pair is included in
the submitted data: in the serialized query pairs for GET and in the
multipart body for every other method. A non-button activating control's
pair is not appended (see the counterexample). -/
theorem onSubmit_includes_button_submitter (f : FormModel) (s : Submitter)
    (hsub : f.submitter = some s) (hb : s.isButton = true) (hn : s.name ≠ "")
    (htgt : ¬(f.target ≠ "" ∧ strToLower f.target ≠ "_self"))
    (hact : f.actionAttr = none ∨ isRelativeHref f.actionAttr = true) :
    ∃ r, Router.onSubmit f = some r ∧
      (r.method = "GET" → (s.name, s.value) ∈ r.queryPairs) ∧
      (r.method ≠ "GET" →
        (s.name, FormVal.str s.value) ∈ r.bodyPairs.getD []) := by
  simp only [Router.onSubmit, hsub]
  rw [if_neg htgt, if_neg (not_not_intro hact), if_pos (And.intro hb hn)]
  by_cases hm :
      strToUpper (if f.methodAttr = "" then "GET" else f.methodAttr) = "GET"
  · rw [if_pos hm]
    refine ⟨_, rfl, fun _ => ?_, fun hne => absurd hm hne⟩
    exact List.mem_filterMap.mpr
      ⟨(s.name, FormVal.str s.value),
       List.mem_append_right _ (List.mem_singleton.mpr rfl), rfl⟩
  · rw [if_neg hm]
    refine ⟨_, rfl, fun hg => absurd hg hm, fun _ => ?_⟩
    exact List.mem_append_right _ (List.mem_singleton.mpr rfl)

theorem onSubmit_includes_button_submitter_witness :
    ∃ r, Router.onSubmit
        { fields := [("q", FormVal.str "1")], methodAttr := "",
          actionAttr := some "/search", target := "",
          submitter := some ⟨true, "go", "yes"⟩ } = some r ∧
      (r.method = "GET" → ("go", "yes") ∈ r.queryPairs) ∧
      (r.method ≠ "GET" → ("go", FormVal.str "yes") ∈ r.bodyPairs.getD []) :=
  onSubmit_includes_button_submitter
    { fields := [("q", FormVal.str "1")], methodAttr := "",
      actionAttr := some "/search", target := "",
      submitter := some ⟨true, "go", "yes"⟩ }
    ⟨true, "go", "yes"⟩ rfl rfl (by decide) (by decide)
    (Or.inr (by decide))

end Reactolith
